import Mathlib

/-!
Shallow embedding of the gomplerate audio resampler (resample.go).

The Go program computes over IEEE-754 `float64`; the embedding models that
arithmetic over exact rationals (`ℚ`).  Go `int` values are `ℤ`, and every
Go operation that can panic (out-of-range slice indexing, `make` with a
negative length, modulo by a non-positive channel count) is modelled as a
fallible step returning `Option`, with `none` standing for the fault.
-/

namespace Gomplerate

/-- The `Resampler` struct: original rate, target rate, channel count. -/
structure Resampler where
  FromRate : ℤ
  ToRate : ℤ
  Channels : ℤ
deriving DecidableEq

/-- The three distinct construction failures of `NewResampler`.  The Go code
produces them as formatted error strings; only their identity matters. -/
inductive ResampleError where
  | invalidChannelCount
  | invalidSourceRate
  | invalidTargetRate
deriving DecidableEq

/-- `NewResampler(channels, inputRate, outputRate)`: three validation checks
in order, first failing check wins; otherwise the struct holds the three
arguments. -/
def NewResampler (channels inputRate outputRate : ℤ) :
    Except ResampleError Resampler :=
  if channels < 1 then .error .invalidChannelCount
  else if inputRate < 1 then .error .invalidSourceRate
  else if outputRate < 1 then .error .invalidTargetRate
  else .ok { FromRate := inputRate, ToRate := outputRate, Channels := channels }

/-- `splineC1(yi)` = `3*((y2-y1)-(y1-y0))` (uses `yi[0..2]`). -/
def splineC1 (y0 y1 y2 : ℚ) : ℚ := 3 * ((y2 - y1) - (y1 - y0))

/-- `splineC2(yi)` = `3*((y3-y2)-(y2-y1))` (uses `yi[1..3]`). -/
def splineC2 (y1 y2 y3 : ℚ) : ℚ := 3 * ((y3 - y2) - (y2 - y1))

/-- `splineM1(c1, c2)` = `(c1*2 - c2/2) / 3.75`. -/
def splineM1 (c1 c2 : ℚ) : ℚ := (c1 * 2 - c2 / 2) / (3.75 : ℚ)

/-- `splineM2(c1, c2)` = `(c1/2 - c2*2) / -7.75`. -/
def splineM2 (c1 c2 : ℚ) : ℚ := (c1 / 2 - c2 * 2) / (-7.75 : ℚ)

/-- `splineZ0(m1, h0, x0, x1, y0, y1, x)`: first sub-interval cubic. -/
def splineZ0 (m1 h0 x0 x1 y0 y1 x : ℚ) : ℚ :=
  let v1 := (x - x0) * (x - x0) * (x - x0) * m1 / (6 * h0)
  let v2 := -1 * y0 * (x - x1) / h0
  let v3 := (y1 - h0 * h0 * m1 / 6) * (x - x0) / h0
  v1 + v2 + v3

/-- `splineZ1(m1, m2, h1, x1, x2, y1, y2, x)`: second sub-interval cubic. -/
def splineZ1 (m1 m2 h1 x1 x2 y1 y2 x : ℚ) : ℚ :=
  let v0 := -1 * (x - x2) * (x - x2) * (x - x2) * m1 / (6 * h1)
  let v1 := (x - x1) * (x - x1) * (x - x1) * m2 / (6 * h1)
  let v2 := -1 * (y1 - h1 * h1 * m1 / 6) * (x - x2) / h1
  let v3 := (y2 - h1 * h1 * m2 / 6) * (x - x1) / h1
  v0 + v1 + v2 + v3

/-- `splineZ2(m2, h2, x2, x3, y2, y3, x)`: third sub-interval cubic. -/
def splineZ2 (m2 h2 x2 x3 y2 y3 x : ℚ) : ℚ :=
  let v0 := -1 * (x - x3) * (x - x3) * (x - x3) * m2 / (6 * h2)
  let v2 := -1 * (y2 - h2 * h2 * m2 / 6) * (x - x3) / h2
  let v3 := y3 * (x - x2) / h2
  v0 + v2 + v3

/-- `spline(xi, yi, xo)`.  The Go function receives the 4-sample window as a
slice `yi` and immediately destructures `yi[0], yi[1], yi[2], yi[3]`; here
the four window samples are passed directly (the caller's in-bounds window
extraction is modelled at the call site in `channelLoop`). -/
def spline (xi y0 y1 y2 y3 xo : ℚ) : ℚ :=
  let c1 := splineC1 y0 y1 y2
  let c2 := splineC2 y1 y2 y3
  let m1 := splineM1 c1 c2
  let m2 := splineM2 c1 c2
  if xo ≤ xi + 1 then splineZ0 m1 1 xi (xi + 1) y0 y1 xo
  else if xo ≤ xi + 2 then splineZ1 m1 m2 1 (xi + 1) (xi + 2) y1 y2 xo
  else splineZ2 m2 1 (xi + 2) (xi + 3) y2 y3 xo

/-- The loop `for x := step; x < availSamples; x += step` of
`resampleChannelData`, writing into a preallocated output of capacity
`cap` at index `i` and finally returning `output[:i]`.  Since the writes
are sequential from index 0, the returned prefix is exactly the list of
emitted samples, built here directly.  Faults are `none`:
window extraction `data[yi0:yi0+4]` out of range, or the write `output[i]`
out of capacity.  `fuel` bounds the recursion; the callers pass `cap + 1`,
which is never exhausted before the loop exits or faults, so `none` on
fuel exhaustion adds no behaviour.  `yi0` models
`xi0 := float64(uint64(x)); yi0 := uint64(xi0)` (truncation of the
positive cursor), and `spline` receives `xi0 = (yi0 : ℚ)`. -/
def channelLoop (data : List ℚ) (cap : ℕ) (avail step : ℚ) :
    ℕ → ℚ → ℕ → Option (List ℚ)
  | 0, _, _ => none
  | fuel + 1, x, i =>
    if x < avail then
      let yi0 : ℕ := (⌊x⌋).toNat
      match data[yi0]?, data[yi0 + 1]?, data[yi0 + 2]?, data[yi0 + 3]? with
      | some y0, some y1, some y2, some y3 =>
        let yo := spline (yi0 : ℚ) y0 y1 y2 y3 x
        if i < cap then
          match channelLoop data cap avail step fuel (x + step) (i + 1) with
          | some rest => some (yo / 32767 :: rest)
          | none => none
        else none
      | _, _, _, _ => none
    else some []

/-- `resampleChannelData(data)`: at most 16 samples gives a same-length
zero sequence; otherwise run the cursor loop with
`availSamples = len(data) - 16`, `step = channelFrom / channelTo` and
output capacity `ceil(availSamples / step)` (Go allocates
`make([]float64, int(math.Ceil(...)))`; a negative capacity, which panics
in Go, makes the very first write fault here). -/
def resampleChannelData (r : Resampler) (data : List ℚ) : Option (List ℚ) :=
  if data.length ≤ 16 then some (List.replicate data.length 0)
  else
    let availSamples : ℤ := (data.length : ℤ) - 16
    let channelFrom : ℚ := (r.FromRate : ℚ) / (r.Channels : ℚ)
    let channelTo : ℚ := (r.ToRate : ℚ) / (r.Channels : ℚ)
    let step : ℚ := channelFrom / channelTo
    let cap : ℕ := (⌈(availSamples : ℚ) / step⌉).toNat
    channelLoop data cap (availSamples : ℚ) step (cap + 1) step 0

/-- Truncation toward zero, as Go's conversion of a non-integral
floating value to an integer type (`int(x)`, `int16(x)`) behaves for
in-range values. -/
def ratTrunc (x : ℚ) : ℤ := if 0 ≤ x then ⌊x⌋ else ⌈x⌉

/-- The channel-splitting loop of `ResampleFloat64`: sample `i` is appended
to channel `i % Channels`, so channel `c` collects, in order, the samples
whose index is congruent to `c`. -/
def splitChannels (data : List ℚ) (ch : ℕ) : List (List ℚ) :=
  (List.range ch).map fun c =>
    ((data.enum.filter fun p => p.1 % ch = c).map fun p => p.2)

/-- The loop `resampledData[c] = resampler.resampleChannelData(channels[c])`
over all channels, propagating a fault of any channel. -/
def resampleAllChannels (r : Resampler) : List (List ℚ) → Option (List (List ℚ))
  | [] => some []
  | c :: cs =>
    match resampleChannelData r c, resampleAllChannels r cs with
    | some rc, some rcs => some (rc :: rcs)
    | _, _ => none

/-- One iteration of the re-interleaving loop: output slot `i` reads channel
`i % len(channels)`; a channel whose resampled data is empty leaves the
zero-initialised slot (`continue`); otherwise `dataIdx = i / Channels`
clamped from above to the last valid index (the Go guard `dataIdx < 0`
cannot fire for a natural index).  `ch` is both `len(channels)` and
`resampler.Channels`, equal in every reachable call. -/
def reinterleaveStep (resampledData : List (List ℚ)) (ch : ℕ) (i : ℕ) :
    Option ℚ :=
  match resampledData[i % ch]? with
  | some chData =>
    if chData.length = 0 then some 0
    else
      let dataIdx := i / ch
      let dataIdx := if dataIdx > chData.length - 1 then chData.length - 1 else dataIdx
      chData[dataIdx]?
  | none => none

/-- The re-interleaving loop `for i := 0; i < len(resampled); i++`, filling
`n` output slots starting at index `i`. -/
def reinterleaveFrom (resampledData : List (List ℚ)) (ch : ℕ) :
    ℕ → ℕ → Option (List ℚ)
  | _, 0 => some []
  | i, n + 1 =>
    match reinterleaveStep resampledData ch i,
        reinterleaveFrom resampledData ch (i + 1) n with
    | some v, some rest => some (v :: rest)
    | _, _ => none

/-- `ResampleFloat64(data)`: empty input returns `nil` (the empty sequence);
identical rates return the input (`data[:]` aliases in Go; contents are
what the embedding captures); otherwise split channels, allocate the
output at `int((len(data)/FromRate)*ToRate)` (a non-positive channel count
or a negative allocation length panics in Go: `none`), resample each
channel, and re-interleave. -/
def ResampleFloat64 (r : Resampler) (data : List ℚ) : Option (List ℚ) :=
  if data.length = 0 then some []
  else if r.FromRate = r.ToRate then some data
  else if r.Channels < 1 then none
  else
    let ch : ℕ := r.Channels.toNat
    let channels := splitChannels data ch
    let outLen : ℤ :=
      ratTrunc (((data.length : ℚ) / (r.FromRate : ℚ)) * (r.ToRate : ℚ))
    if outLen < 0 then none
    else
      match resampleAllChannels r channels with
      | some resampledData => reinterleaveFrom resampledData ch 0 outLen.toNat
      | none => none

/-- `ResampleInt16(data)`: normalise every sample by `float64(0x7FFF)`,
delegate to `ResampleFloat64`, convert each result back with
`int16(v * float64(0x7FFF))` (truncation toward zero; every value reached
in the verified scenarios is in `int16` range, where Go's conversion is
exactly this truncation). -/
def ResampleInt16 (r : Resampler) (data : List ℤ) : Option (List ℤ) :=
  let f64data := data.map fun s : ℤ => (s : ℚ) / 32767
  match ResampleFloat64 r f64data with
  | some resampledf64 => some (resampledf64.map fun v => ratTrunc (v * 32767))
  | none => none

/-- The sample emitted by one iteration of the `resampleChannelData` loop
whose cursor is at `x`: the spline over the window at `⌊x⌋`, divided by
`0x7FFF`.  (`List.getD` with default 0 is only read at indices the loop
has checked to be in bounds.) -/
def emitAt (data : List ℚ) (x : ℚ) : ℚ :=
  spline ((⌊x⌋).toNat : ℚ)
    (data.getD (⌊x⌋).toNat 0) (data.getD ((⌊x⌋).toNat + 1) 0)
    (data.getD ((⌊x⌋).toNat + 2) 0) (data.getD ((⌊x⌋).toNat + 3) 0)
    x / 32767

/-- The per-channel cursor step `(FromRate/Channels) / (ToRate/Channels)`. -/
def stepOf (r : Resampler) : ℚ :=
  ((r.FromRate : ℚ) / (r.Channels : ℚ)) / ((r.ToRate : ℚ) / (r.Channels : ℚ))

/-- The 1-channel input of the spec's concrete upsampling scenario:
20 samples valued `0, 1, 2, …, 19`. -/
def data20 : List ℚ :=
  [0, 1, 2, 3, 4, 5, 6, 7, 8, 9, 10, 11, 12, 13, 14, 15, 16, 17, 18, 19]

lemma getD_eq_getElem (l : List ℚ) (n : ℕ) (h : n < l.length) :
    l.getD n 0 = l[n] := by
  rw [List.getD_eq_getElem?_getD, List.getElem?_eq_getElem h, Option.getD_some]

lemma rem_eq_zero (avail step x : ℚ) (hstep : 0 < step) (hge : ¬ x < avail) :
    (⌈(avail - x) / step⌉).toNat = 0 := by
  have hle : (avail - x) / step ≤ 0 :=
    div_nonpos_iff.mpr (Or.inr ⟨by linarith, le_of_lt hstep⟩)
  have : ⌈(avail - x) / step⌉ ≤ 0 := by
    exact_mod_cast Int.ceil_le.mpr (by exact_mod_cast hle)
  omega

/-- One cursor loop of `resampleChannelData`, characterised: with a positive
step, a nonnegative cursor, enough write capacity and every reachable
window in bounds, the loop succeeds and emits `emitAt` at the cursor
positions `x, x + step, x + 2·step, …` while they stay below `avail`. -/
lemma channelLoop_eq (data : List ℚ) (cp : ℕ) (avail step : ℚ)
    (hstep : 0 < step)
    (hwin : ∀ y : ℚ, 0 ≤ y → y < avail → (⌊y⌋).toNat + 4 ≤ data.length) :
    ∀ (fuel : ℕ) (x : ℚ) (i : ℕ), 0 ≤ x →
      i + (⌈(avail - x) / step⌉).toNat ≤ cp →
      (⌈(avail - x) / step⌉).toNat < fuel →
      channelLoop data cp avail step fuel x i =
        some ((List.range (⌈(avail - x) / step⌉).toNat).map
          fun k : ℕ => emitAt data (x + (k : ℚ) * step)) := by
  intro fuel
  induction fuel with
  | zero => intro x i _ _ hfuel; omega
  | succ fuel ih =>
    intro x i hx hcap hfuel
    by_cases hlt : x < avail
    · have hA : 0 < (avail - x) / step := div_pos (by linarith) hstep
      have hA1 : 1 ≤ ⌈(avail - x) / step⌉ := Int.one_le_ceil_iff.mpr hA
      have hsub : (avail - (x + step)) / step = (avail - x) / step - 1 := by
        rw [show avail - (x + step) = (avail - x) - step by ring, sub_div,
          div_self (ne_of_gt hstep)]
      have hsucc : (⌈(avail - x) / step⌉).toNat
          = (⌈(avail - (x + step)) / step⌉).toNat + 1 := by
        rw [hsub, Int.ceil_sub_one]; omega
      have hwx := hwin x hx hlt
      have h0 : (⌊x⌋).toNat < data.length := by omega
      have h1 : (⌊x⌋).toNat + 1 < data.length := by omega
      have h2 : (⌊x⌋).toNat + 2 < data.length := by omega
      have h3 : (⌊x⌋).toNat + 3 < data.length := by omega
      have hicap : i < cp := by omega
      have hrec := ih (x + step) (i + 1) (by linarith) (by omega) (by omega)
      rw [channelLoop, if_pos hlt]
      simp only [List.getElem?_eq_getElem h0, List.getElem?_eq_getElem h1,
        List.getElem?_eq_getElem h2, List.getElem?_eq_getElem h3,
        if_pos hicap, hrec, hsucc, List.range_succ_eq_map, List.map_cons,
        List.map_map, Option.some.injEq, List.cons.injEq]
      constructor
      · have hx0 : x + ((0 : ℕ) : ℚ) * step = x := by push_cast; ring
        simp only [hx0, emitAt, getD_eq_getElem _ _ h0, getD_eq_getElem _ _ h1,
          getD_eq_getElem _ _ h2, getD_eq_getElem _ _ h3]
      · apply List.map_congr_left
        intro k _
        show emitAt data (x + step + (k : ℚ) * step)
          = emitAt data (x + ((k + 1 : ℕ) : ℚ) * step)
        congr 1
        push_cast
        ring
    · rw [channelLoop, if_neg hlt, rem_eq_zero avail step x hstep hlt]
      rfl

lemma stepOf_pos (r : Resampler) (hc : 1 ≤ r.Channels) (hf : 1 ≤ r.FromRate)
    (ht : 1 ≤ r.ToRate) : 0 < stepOf r := by
  have hc' : (0 : ℚ) < (r.Channels : ℚ) := by
    exact_mod_cast (by omega : (0 : ℤ) < r.Channels)
  have hf' : (0 : ℚ) < (r.FromRate : ℚ) := by
    exact_mod_cast (by omega : (0 : ℤ) < r.FromRate)
  have ht' : (0 : ℚ) < (r.ToRate : ℚ) := by
    exact_mod_cast (by omega : (0 : ℤ) < r.ToRate)
  exact div_pos (div_pos hf' hc') (div_pos ht' hc')

/-- `resampleChannelData` on more than 16 samples: the loop runs
`(⌈availSamples / step⌉ - 1).toNat` times and emits the spline samples at
the cursor positions `step, 2·step, 3·step, …`. -/
lemma resampleChannelData_eq (r : Resampler) (data : List ℚ)
    (hstep : 0 < stepOf r) (hlen : 16 < data.length) :
    resampleChannelData r data =
      some ((List.range (⌈((data.length : ℚ) - 16) / stepOf r⌉ - 1).toNat).map
        fun k : ℕ => emitAt data (((k : ℚ) + 1) * stepOf r)) := by
  have hnotle : ¬ data.length ≤ 16 := by omega
  have havail : (((data.length : ℤ) - 16 : ℤ) : ℚ) = (data.length : ℚ) - 16 := by
    push_cast
    ring
  have hwin : ∀ y : ℚ, 0 ≤ y → y < (data.length : ℚ) - 16 →
      (⌊y⌋).toNat + 4 ≤ data.length := by
    intro y _ hyA
    have h1 : (⌊y⌋ : ℚ) ≤ y := Int.floor_le y
    have h2 : (⌊y⌋ : ℚ) < (((data.length : ℤ) - 16 : ℤ) : ℚ) := by
      rw [havail]; linarith
    have h3 : ⌊y⌋ < (data.length : ℤ) - 16 := by exact_mod_cast h2
    omega
  have hrem : (⌈(((data.length : ℚ) - 16) - stepOf r) / stepOf r⌉).toNat
      = (⌈((data.length : ℚ) - 16) / stepOf r⌉ - 1).toNat := by
    rw [sub_div, div_self (ne_of_gt hstep), Int.ceil_sub_one]
  have key := channelLoop_eq data
    ((⌈((data.length : ℚ) - 16) / stepOf r⌉).toNat)
    ((data.length : ℚ) - 16) (stepOf r) hstep hwin
    ((⌈((data.length : ℚ) - 16) / stepOf r⌉).toNat + 1) (stepOf r) 0
    (le_of_lt hstep) (by rw [hrem]; omega) (by rw [hrem]; omega)
  rw [hrem] at key
  have hlist : (List.range (⌈((data.length : ℚ) - 16) / stepOf r⌉ - 1).toNat).map
        (fun k : ℕ => emitAt data (stepOf r + (k : ℚ) * stepOf r))
      = (List.range (⌈((data.length : ℚ) - 16) / stepOf r⌉ - 1).toNat).map
        (fun k : ℕ => emitAt data (((k : ℚ) + 1) * stepOf r)) :=
    List.map_congr_left fun k _ => by congr 1; ring
  rw [hlist] at key
  rw [resampleChannelData, if_neg hnotle]
  simp only [havail]
  exact key

lemma resampleChannelData_total (r : Resampler) (hstep : 0 < stepOf r)
    (d : List ℚ) : ∃ o, resampleChannelData r d = some o := by
  by_cases h : d.length ≤ 16
  · exact ⟨_, by rw [resampleChannelData, if_pos h]⟩
  · exact ⟨_, resampleChannelData_eq r d hstep (by omega)⟩

lemma resampleAllChannels_total (r : Resampler) (hstep : 0 < stepOf r) :
    ∀ cs : List (List ℚ), ∃ rds, resampleAllChannels r cs = some rds ∧
      rds.length = cs.length := by
  intro cs
  induction cs with
  | nil => exact ⟨[], rfl, rfl⟩
  | cons c cs ih =>
    obtain ⟨rc, hrc⟩ := resampleChannelData_total r hstep c
    obtain ⟨rds, hrds, hlen⟩ := ih
    refine ⟨rc :: rds, ?_, by simp [hlen]⟩
    rw [resampleAllChannels, hrc, hrds]

lemma reinterleaveStep_total (rd : List (List ℚ)) (ch i : ℕ) (hch : 0 < ch)
    (hlen : rd.length = ch) : ∃ v, reinterleaveStep rd ch i = some v := by
  have hidx : i % ch < rd.length := by rw [hlen]; exact Nat.mod_lt i hch
  simp only [reinterleaveStep, List.getElem?_eq_getElem hidx]
  by_cases h0 : (rd[i % ch]).length = 0
  · exact ⟨0, by rw [if_pos h0]⟩
  · rw [if_neg h0]
    by_cases hgt : i / ch > (rd[i % ch]).length - 1
    · have hlt : (rd[i % ch]).length - 1 < (rd[i % ch]).length := by omega
      exact ⟨_, by rw [if_pos hgt, List.getElem?_eq_getElem hlt]⟩
    · have hlt : i / ch < (rd[i % ch]).length := by omega
      exact ⟨_, by rw [if_neg hgt, List.getElem?_eq_getElem hlt]⟩

lemma reinterleaveFrom_total (rd : List (List ℚ)) (ch : ℕ) (hch : 0 < ch)
    (hlen : rd.length = ch) :
    ∀ (n i : ℕ), ∃ l, reinterleaveFrom rd ch i n = some l ∧ l.length = n := by
  intro n
  induction n with
  | zero => exact fun i => ⟨[], rfl, rfl⟩
  | succ n ih =>
    intro i
    obtain ⟨v, hv⟩ := reinterleaveStep_total rd ch i hch hlen
    obtain ⟨l, hl, hlenl⟩ := ih (i + 1)
    refine ⟨v :: l, ?_, by simp [hlenl]⟩
    rw [reinterleaveFrom, hv, hl]

lemma splitChannels_length (data : List ℚ) (ch : ℕ) :
    (splitChannels data ch).length = ch := by
  simp [splitChannels]

/-- On a valid configuration, a non-empty buffer and distinct rates,
`ResampleFloat64` succeeds and its output length is
`int((len(data)/FromRate)*ToRate)`. -/
lemma ResampleFloat64_eq_some (r : Resampler) (data : List ℚ)
    (hc : 1 ≤ r.Channels) (hf : 1 ≤ r.FromRate) (ht : 1 ≤ r.ToRate)
    (hne : ¬ data.length = 0) (hrates : ¬ r.FromRate = r.ToRate) :
    ∃ out, ResampleFloat64 r data = some out ∧
      (out.length : ℤ)
        = ⌊((data.length : ℚ) / (r.FromRate : ℚ)) * (r.ToRate : ℚ)⌋ := by
  have hch0 : ¬ r.Channels < 1 := by omega
  have hstep := stepOf_pos r hc hf ht
  have hl : (0 : ℚ) < (data.length : ℚ) := by
    exact_mod_cast Nat.pos_of_ne_zero hne
  have hf' : (0 : ℚ) < (r.FromRate : ℚ) := by
    exact_mod_cast (by omega : (0 : ℤ) < r.FromRate)
  have ht' : (0 : ℚ) < (r.ToRate : ℚ) := by
    exact_mod_cast (by omega : (0 : ℤ) < r.ToRate)
  have hvpos : 0 < ((data.length : ℚ) / (r.FromRate : ℚ)) * (r.ToRate : ℚ) :=
    mul_pos (div_pos hl hf') ht'
  have htrunc : ratTrunc (((data.length : ℚ) / (r.FromRate : ℚ)) * (r.ToRate : ℚ))
      = ⌊((data.length : ℚ) / (r.FromRate : ℚ)) * (r.ToRate : ℚ)⌋ := by
    rw [ratTrunc, if_pos (le_of_lt hvpos)]
  have hfloor0 : 0 ≤ ⌊((data.length : ℚ) / (r.FromRate : ℚ)) * (r.ToRate : ℚ)⌋ :=
    Int.floor_nonneg.mpr (le_of_lt hvpos)
  obtain ⟨rds, hrds, hrdslen⟩ :=
    resampleAllChannels_total r hstep (splitChannels data r.Channels.toNat)
  have hch' : 0 < r.Channels.toNat := by omega
  have hrdlen : rds.length = r.Channels.toNat := by
    rw [hrdslen, splitChannels_length]
  obtain ⟨out, hout, houtlen⟩ := reinterleaveFrom_total rds r.Channels.toNat
    hch' hrdlen
    (⌊((data.length : ℚ) / (r.FromRate : ℚ)) * (r.ToRate : ℚ)⌋).toNat 0
  refine ⟨out, ?_, by omega⟩
  simp only [ResampleFloat64, if_neg hne, if_neg hrates, if_neg hch0, htrunc,
    if_neg (not_lt.mpr hfloor0), hrds]
  exact hout

lemma ResampleFloat64_total (r : Resampler) (hc : 1 ≤ r.Channels)
    (hf : 1 ≤ r.FromRate) (ht : 1 ≤ r.ToRate) (data : List ℚ) :
    ∃ out, ResampleFloat64 r data = some out := by
  by_cases h0 : data.length = 0
  · exact ⟨[], by rw [ResampleFloat64, if_pos h0]⟩
  · by_cases hr : r.FromRate = r.ToRate
    · exact ⟨data, by rw [ResampleFloat64, if_neg h0, if_pos hr]⟩
    · obtain ⟨out, hout, -⟩ := ResampleFloat64_eq_some r data hc hf ht h0 hr
      exact ⟨out, hout⟩

lemma ResampleInt16_total (r : Resampler) (hc : 1 ≤ r.Channels)
    (hf : 1 ≤ r.FromRate) (ht : 1 ≤ r.ToRate) (data : List ℤ) :
    ∃ out, ResampleInt16 r data = some out := by
  obtain ⟨out, hout⟩ :=
    ResampleFloat64_total r hc hf ht (data.map fun s : ℤ => (s : ℚ) / 32767)
  exact ⟨out.map fun v => ratTrunc (v * 32767),
    by simp only [ResampleInt16, hout]⟩

/-- C1: for inputs longer than 16 samples, `resampleChannelData` succeeds and
its output length is exactly the number of cursor-loop iterations (every
cursor position `k · step` for `1 ≤ k ≤ length` is below `availableSamples`
and the next one is not), and is at most `ceil(availableSamples / step)`,
the allocated capacity. -/
theorem C1_output_length (r : Resampler) (data : List ℚ)
    (hc : 1 ≤ r.Channels) (hf : 1 ≤ r.FromRate) (ht : 1 ≤ r.ToRate)
    (hlen : 16 < data.length) :
    ∃ out, resampleChannelData r data = some out ∧
      (∀ k : ℕ, 1 ≤ k → k ≤ out.length →
        (k : ℚ) * stepOf r < (data.length : ℚ) - 16) ∧
      ¬ ((out.length : ℚ) + 1) * stepOf r < (data.length : ℚ) - 16 ∧
      out.length ≤ (⌈((data.length : ℚ) - 16) / stepOf r⌉).toNat := by
  have hstep := stepOf_pos r hc hf ht
  refine ⟨_, resampleChannelData_eq r data hstep hlen, ?_, ?_, ?_⟩
  · intro k hk1 hk2
    simp only [List.length_map, List.length_range] at hk2
    have hkC : (k : ℤ) < ⌈((data.length : ℚ) - 16) / stepOf r⌉ := by omega
    have hkq : ((k : ℤ) : ℚ) < ((data.length : ℚ) - 16) / stepOf r :=
      Int.lt_ceil.mp hkC
    have hkq' : (k : ℚ) < ((data.length : ℚ) - 16) / stepOf r := by
      push_cast at hkq
      exact hkq
    exact (lt_div_iff₀ hstep).mp hkq'
  · intro hcon
    simp only [List.length_map, List.length_range] at hcon
    have h1 : ((((⌈((data.length : ℚ) - 16) / stepOf r⌉ - 1).toNat : ℕ) : ℚ) + 1)
        < ((data.length : ℚ) - 16) / stepOf r := (lt_div_iff₀ hstep).mpr hcon
    have h3 : ((⌈((data.length : ℚ) - 16) / stepOf r⌉ - 1).toNat : ℤ) + 1
        < ⌈((data.length : ℚ) - 16) / stepOf r⌉ :=
      Int.lt_ceil.mpr (by exact_mod_cast h1)
    omega
  · simp only [List.length_map, List.length_range]
    omega

/-- Demonstrates C1 at the spec's concrete scenario A. -/
theorem C1_output_length_witness :
    16 < data20.length ∧
      (resampleChannelData ⟨1, 2, 1⟩ data20).isSome = true := by
  refine ⟨by decide, ?_⟩
  obtain ⟨out, hout, -, -, -⟩ := C1_output_length ⟨1, 2, 1⟩ data20
    (by decide) (by decide) (by decide) (by decide)
  rw [hout]
  rfl

/-- C2: any input of at most 16 samples yields a same-length all-zero
output, for every configuration; the boundary is exact: a 16-sample input
is zero-filled, while a 17-sample input (here all ones, with rates 1 → 2)
is resampled to a single interpolated sample instead. -/
theorem C2_degenerate_zero_fill :
    (∀ (r : Resampler) (data : List ℚ), data.length ≤ 16 →
      resampleChannelData r data = some (List.replicate data.length 0)) ∧
    resampleChannelData ⟨1, 2, 1⟩ (List.replicate 16 (1 : ℚ))
        = some (List.replicate 16 0) ∧
    resampleChannelData ⟨1, 2, 1⟩ (List.replicate 17 (1 : ℚ))
        = some [1 / 32767] := by
  refine ⟨fun r data h => by rw [resampleChannelData, if_pos h], rfl, ?_⟩
  simp only [resampleChannelData]
  norm_num [channelLoop, spline, splineC1, splineC2, splineM1, splineM2,
    splineZ0, splineZ1, splineZ2, List.replicate_succ, Int.ceil_ofNat,
    Int.floor_ofNat, Int.toNat_ofNat, Int.toNat_zero, Int.toNat_one]

/-- Demonstrates C2's degenerate path at a concrete short input. -/
theorem C2_degenerate_zero_fill_witness :
    resampleChannelData ⟨2, 3, 2⟩ (List.replicate 5 (1 : ℚ))
      = some (List.replicate 5 0) :=
  C2_degenerate_zero_fill.1 ⟨2, 3, 2⟩ (List.replicate 5 1) (by decide)

/-- C3: every sample emitted by the per-channel resampler is the raw spline
value at the cursor divided by 32767 (`emitAt` is literally that
quotient), and in scenario A (rates 1 → 2, input `0,…,19`) the first
output sample is the raw spline value `1/2` divided by `32767`. -/
theorem C3_normalized_emit (r : Resampler) (data : List ℚ)
    (hc : 1 ≤ r.Channels) (hf : 1 ≤ r.FromRate) (ht : 1 ≤ r.ToRate)
    (hlen : 16 < data.length) :
    (∃ out, resampleChannelData r data = some out ∧
      ∀ j : ℕ, j < out.length →
        out[j]? = some (emitAt data (((j : ℚ) + 1) * stepOf r))) ∧
    (∃ out, resampleChannelData ⟨1, 2, 1⟩ data20 = some out ∧
      out[0]? = some (spline 0 0 1 2 3 (1 / 2) / 32767) ∧
      spline 0 0 1 2 3 (1 / 2) = 1 / 2 ∧
      out[0]? = some (1 / 2 / 32767)) := by
  constructor
  · have hstep := stepOf_pos r hc hf ht
    refine ⟨_, resampleChannelData_eq r data hstep hlen, ?_⟩
    intro j hj
    simp only [List.length_map, List.length_range] at hj
    rw [List.getElem?_map, List.getElem?_range hj]
    rfl
  · refine ⟨[1 / 65534, 1 / 32767, 3 / 65534, 2 / 32767, 5 / 65534,
      3 / 32767, 1 / 9362], ?_, ?_, ?_, ?_⟩
    · simp only [resampleChannelData, data20]
      norm_num [channelLoop, spline, splineC1, splineC2, splineM1, splineM2,
        splineZ0, splineZ1, splineZ2, Int.ceil_ofNat, Int.floor_ofNat,
        Int.toNat_ofNat, Int.toNat_zero, Int.toNat_one,
        show Int.toNat 2 = 2 from rfl, show Int.toNat 3 = 3 from rfl,
        show Int.toNat 8 = 8 from rfl]
    · norm_num [spline, splineC1, splineC2, splineM1, splineM2, splineZ0]
    · norm_num [spline, splineC1, splineC2, splineM1, splineM2, splineZ0]
    · norm_num

/-- Demonstrates C3 at scenario A: the first output sample is
`(1/2) / 32767`. -/
theorem C3_normalized_emit_witness :
    Option.map (fun l : List ℚ => l[0]?) (resampleChannelData ⟨1, 2, 1⟩ data20)
      = some (some (1 / 2 / 32767)) := by
  obtain ⟨-, out, hout, -, -, h4⟩ := C3_normalized_emit ⟨1, 2, 1⟩ data20
    (by decide) (by decide) (by decide) (by decide)
  rw [hout, Option.map_some', h4]

/-- C4: on a valid configuration with distinct rates and a non-empty buffer,
`ResampleFloat64` succeeds and its output length is
`floor((len(data) / FromRate) · ToRate)`. -/
theorem C4_total_length (r : Resampler) (data : List ℚ)
    (hc : 1 ≤ r.Channels) (hf : 1 ≤ r.FromRate) (ht : 1 ≤ r.ToRate)
    (hne : ¬ data.length = 0) (hrates : ¬ r.FromRate = r.ToRate) :
    ∃ out, ResampleFloat64 r data = some out ∧
      (out.length : ℤ)
        = ⌊((data.length : ℚ) / (r.FromRate : ℚ)) * (r.ToRate : ℚ)⌋ :=
  ResampleFloat64_eq_some r data hc hf ht hne hrates

/-- Demonstrates C4 at scenario A: 20 input samples, rates 1 → 2, output
length 40. -/
theorem C4_total_length_witness :
    Option.map List.length (ResampleFloat64 ⟨1, 2, 1⟩ data20) = some 40 := by
  obtain ⟨out, hout, hlen⟩ := C4_total_length ⟨1, 2, 1⟩ data20
    (by decide) (by decide) (by decide) (by decide) (by decide)
  have h20 : data20.length = 20 := by decide
  rw [h20] at hlen
  norm_num at hlen
  rw [hout, Option.map_some']
  exact congrArg some (by omega)

/-- C5: on any valid configuration (all fields ≥ 1) both entry points are
total: every float buffer and every 16-bit buffer resamples to `some`
output (no index out of range, no failed window extraction, no other
fault), and the empty buffer yields the empty output. -/
theorem C5_no_failure (r : Resampler) (hc : 1 ≤ r.Channels)
    (hf : 1 ≤ r.FromRate) (ht : 1 ≤ r.ToRate) :
    (∀ data : List ℚ, ∃ out, ResampleFloat64 r data = some out) ∧
    (∀ data : List ℤ, ∃ out, ResampleInt16 r data = some out) ∧
    ResampleFloat64 r [] = some [] :=
  ⟨ResampleFloat64_total r hc hf ht, ResampleInt16_total r hc hf ht, rfl⟩

/-- Demonstrates C5 on a concrete 2-channel configuration. -/
theorem C5_no_failure_witness :
    (ResampleFloat64 ⟨2, 3, 2⟩ data20).isSome = true ∧
    (ResampleInt16 ⟨2, 3, 2⟩ [0, 1, 2]).isSome = true := by
  have h := C5_no_failure ⟨2, 3, 2⟩ (by decide) (by decide) (by decide)
  obtain ⟨o1, h1⟩ := h.1 data20
  obtain ⟨o2, h2⟩ := h.2.1 [0, 1, 2]
  rw [h1, h2]
  exact ⟨rfl, rfl⟩

/-- C6 (counterexample to the spec's scenario C): with identity rates the
16-bit round trip of `[0, 16384, -16384]` returns `[0, 16384, -16384]`,
not the claimed `[0, 16383, -16384]`: `16384/32767 · 32767` is exactly
`16384` (this also matches the compiled Go program, where the IEEE-754
double rounding of `16384/32767` multiplies back to exactly `16384.0`). -/
theorem C6_scenario_counterexample :
    ResampleInt16 ⟨1, 1, 1⟩ [0, 16384, -16384] = some [0, 16384, -16384] ∧
    ¬ ResampleInt16 ⟨1, 1, 1⟩ [0, 16384, -16384]
        = some [0, 16383, -16384] := by
  have h : ResampleInt16 ⟨1, 1, 1⟩ [0, 16384, -16384]
      = some [0, 16384, -16384] := by
    simp only [ResampleInt16, ResampleFloat64, ratTrunc]
    norm_num [Int.ceil_neg, Int.floor_ofNat]
  refine ⟨h, ?_⟩
  rw [h]
  intro hcon
  simp only [Option.some.injEq, List.cons.injEq] at hcon
  norm_num at hcon

/-- C6 (amended): `ResampleInt16` divides each sample by 32767, delegates
to the float path, and converts each result back by multiplying by 32767
and truncating toward zero; on `[0, 16384, -16384]` with identity rates
the result is `[0, 16384, -16384]`. -/
theorem C6_normalize_delegate_denormalize :
    (∀ (r : Resampler) (data : List ℤ),
      ResampleInt16 r data
        = Option.map (fun l : List ℚ => l.map fun v => ratTrunc (v * 32767))
            (ResampleFloat64 r (data.map fun s : ℤ => (s : ℚ) / 32767))) ∧
    ResampleInt16 ⟨1, 1, 1⟩ [0, 16384, -16384] = some [0, 16384, -16384] := by
  constructor
  · intro r data
    cases h : ResampleFloat64 r (data.map fun s : ℤ => (s : ℚ) / 32767) <;>
      simp [ResampleInt16, h]
  · simp only [ResampleInt16, ResampleFloat64, ratTrunc]
    norm_num [Int.ceil_neg, Int.floor_ofNat]

/-- C7: the three construction checks fire in order (channel count, then
source rate, then target rate), each exactly on its stated condition, and
with all three arguments ≥ 1 construction returns the configuration
holding exactly those arguments. -/
theorem C7_validation_order (channels inputRate outputRate : ℤ) :
    (NewResampler channels inputRate outputRate
        = .error .invalidChannelCount ↔ channels < 1) ∧
    (NewResampler channels inputRate outputRate
        = .error .invalidSourceRate ↔ 1 ≤ channels ∧ inputRate < 1) ∧
    (NewResampler channels inputRate outputRate
        = .error .invalidTargetRate
      ↔ 1 ≤ channels ∧ 1 ≤ inputRate ∧ outputRate < 1) ∧
    (1 ≤ channels → 1 ≤ inputRate → 1 ≤ outputRate →
      NewResampler channels inputRate outputRate
        = .ok { FromRate := inputRate, ToRate := outputRate,
                Channels := channels }) := by
  unfold NewResampler
  split_ifs with h1 h2 h3 <;> simp_all

/-- Demonstrates C7: a zero channel count fails with the channel-count
error; a fully valid triple constructs the configuration. -/
theorem C7_validation_order_witness :
    NewResampler 0 5 5 = .error .invalidChannelCount ∧
    NewResampler 2 44100 48000
      = .ok { FromRate := 44100, ToRate := 48000, Channels := 2 } :=
  ⟨(C7_validation_order 0 5 5).1.mpr (by decide),
    (C7_validation_order 2 44100 48000).2.2.2 (by decide) (by decide)
      (by decide)⟩

/-- C8: with equal rates, `ResampleFloat64` returns a buffer with exactly
the input's contents (in Go it is the same underlying storage,
`data[:]`). -/
theorem C8_identity_rate (r : Resampler) (data : List ℚ)
    (h : r.FromRate = r.ToRate) : ResampleFloat64 r data = some data := by
  by_cases h0 : data.length = 0
  · have hnil : data = [] := List.length_eq_zero.mp h0
    rw [ResampleFloat64, if_pos h0, hnil]
  · rw [ResampleFloat64, if_neg h0, if_pos h]

/-- Demonstrates C8 on a concrete identity-rate configuration. -/
theorem C8_identity_rate_witness :
    ResampleFloat64 ⟨3, 3, 2⟩ [5, 7] = some [5, 7] :=
  C8_identity_rate ⟨3, 3, 2⟩ [5, 7] rfl

/-- C9: in every spline call made by the resampling loop the query `x`
lies in `[baseIndex, baseIndex + 1)` where `baseIndex` is the truncation
of the nonnegative cursor, so `spline` takes its first branch
(`splineZ0`); `splineZ1` and `splineZ2` are unreachable from the
resampling entry points. -/
theorem C9_first_subinterval (x y0 y1 y2 y3 : ℚ) (hx : 0 ≤ x) :
    (((⌊x⌋).toNat : ℚ) ≤ x ∧ x < ((⌊x⌋).toNat : ℚ) + 1) ∧
    spline ((⌊x⌋).toNat : ℚ) y0 y1 y2 y3 x
      = splineZ0 (splineM1 (splineC1 y0 y1 y2) (splineC2 y1 y2 y3)) 1
        ((⌊x⌋).toNat : ℚ) (((⌊x⌋).toNat : ℚ) + 1) y0 y1 x := by
  have h0 : (0 : ℤ) ≤ ⌊x⌋ := Int.floor_nonneg.mpr hx
  have hcast : (((⌊x⌋).toNat : ℕ) : ℚ) = ((⌊x⌋ : ℤ) : ℚ) := by
    exact_mod_cast congrArg (fun z : ℤ => (z : ℚ)) (Int.toNat_of_nonneg h0)
  have hb1 : (((⌊x⌋).toNat : ℕ) : ℚ) ≤ x := by
    rw [hcast]
    exact Int.floor_le x
  have hb2 : x < (((⌊x⌋).toNat : ℕ) : ℚ) + 1 := by
    rw [hcast]
    exact Int.lt_floor_add_one x
  refine ⟨⟨hb1, hb2⟩, ?_⟩
  simp only [spline, if_pos (le_of_lt hb2)]

/-- Demonstrates C9 at the cursor `x = 3/2`. -/
theorem C9_first_subinterval_witness :
    (((⌊(3 / 2 : ℚ)⌋).toNat : ℚ) ≤ (3 / 2 : ℚ) ∧
      (3 / 2 : ℚ) < ((⌊(3 / 2 : ℚ)⌋).toNat : ℚ) + 1) ∧
    spline ((⌊(3 / 2 : ℚ)⌋).toNat : ℚ) 0 1 2 3 (3 / 2)
      = splineZ0 (splineM1 (splineC1 0 1 2) (splineC2 1 2 3)) 1
        ((⌊(3 / 2 : ℚ)⌋).toNat : ℚ) (((⌊(3 / 2 : ℚ)⌋).toNat : ℚ) + 1)
        0 1 (3 / 2) :=
  C9_first_subinterval (3 / 2) 0 1 2 3 (by norm_num)

end Gomplerate
